import Mathlib

/-!
Verification of the directory-ingestion core of `auth0-deploy-cli`
(`src/context.js`, exercised by `src/test/context.tests.js`).

The development shallowly embeds the context module: the filesystem is an
inductive tree, Node's `readdir`/`readFile`/`lstat` become total functions on
that tree, and the seven per-resource collectors (`getRules`, `getPages`,
`getDatabases`, `getConfigurableConfigs`, `getEmailTemplates`,
`getEmailProviders`) together with `getChanges` and `Context.init` become pure
functions.  External collaborators that are not part of the repository are
modelled and documented at their definition: the `constants` table and the
`unifyScripts`/`unifyDatabases` transforms of
`@factorten/auth0-source-control-extension-tools`, Node's `path.parse`, and
`JSON.parse`.  Asynchrony is modelled by an explicit completion-order
parameter where the source's promise completion order is observable (the
database-connection scan), and by a static in-flight-read count for the
bluebird `Promise.map { concurrency: 2 }` pools.
-/

namespace DeployCli

/-! ## String helpers (model of Node `path.parse` name/ext splitting) -/

/-- Boolean prefix test on character lists. -/
def isPrefixChars : List Char → List Char → Bool
  | [], _ => true
  | _ :: _, [] => false
  | a :: as, b :: bs => a == b && isPrefixChars as bs

/-- Boolean suffix test on strings, via reversed character lists. -/
def strEndsWith (s suf : String) : Bool :=
  isPrefixChars suf.data.reverse s.data.reverse

/-- Boolean prefix test on strings. -/
def strStartsWith (s pre : String) : Bool :=
  isPrefixChars pre.data s.data

/-- Lower-case every character of a string (ASCII is all that the sources use). -/
def lowerStr (s : String) : String :=
  String.mk (s.data.map Char.toLower)

/-- Model of the case-insensitive regular expression test `/\.js$/i`. -/
def jsTest (s : String) : Bool :=
  strEndsWith (lowerStr s) ".js"

/-- Model of the case-insensitive regular expression test `/\.json$/i`. -/
def jsonTest (s : String) : Bool :=
  strEndsWith (lowerStr s) ".json"

/-- Split a character list at its last dot: `some (before, dot :: after)` when a
dot exists, `none` otherwise.  Recursing first on the tail finds the last dot. -/
def splitExtChars : List Char → Option (List Char × List Char)
  | [] => none
  | c :: rest =>
    match splitExtChars rest with
    | some (nm, ex) => some (c :: nm, ex)
    | none => if c == '.' then some ([], c :: rest) else none

/-- Modelled from Node's `path.parse` applied to a base name: the pair
`(name, ext)` where `ext` starts at the last dot, except that a dot that is the
first character (a leading-dot file such as `.hidden`) yields an empty `ext`. -/
def splitExtName (s : String) : String × String :=
  match splitExtChars s.data with
  | none => (s, "")
  | some ([], _) => (s, "")
  | some (nm, ex) => (String.mk nm, String.mk ex)

/-- Render a path: the base string followed by a slash-separated segment list,
as `path.join` produces it in the source. -/
def renderPath (base : String) (segs : List String) : String :=
  segs.foldl (fun acc s => acc ++ "/" ++ s) base

/-- Last segment of a relative path, or the base for an empty one: the model of
`path.basename dirPath`. -/
def lastSeg (base : String) (rel : List String) : String :=
  rel.getLastD base

/-! ## Filesystem model -/

/-- A filesystem node: a regular file with text content, a directory with an
ordered entry list (the order `readdir` returns), or a symbolic link together
with what it resolves to (`none` for a broken link).  Sockets and other
non-file non-directory path kinds behave like links for the code under study:
`lstat` reports neither a file nor a directory. -/
inductive FSNode : Type where
  | file (content : String) : FSNode
  | symlink (target : Option FSNode) : FSNode
  | dir (entries : List (String × FSNode)) : FSNode

/-- Follow a chain of symbolic links down to a file or directory (`none` for
a broken link). -/
def deref : FSNode → Option FSNode
  | FSNode.symlink (some t) => deref t
  | FSNode.symlink none => none
  | n => some n

/-- Look one path segment up in a directory entry list (first match, as a
real directory never repeats a name). -/
def lookupEntry : List (String × FSNode) → String → Option FSNode
  | [], _ => none
  | (n, node) :: rest, s => if n = s then some node else lookupEntry rest s

/-- Resolve a relative path inside a node, following intermediate links but
not a final one (the final node is reported as `lstat` sees it). -/
def resolveNode (node : FSNode) : List String → Option FSNode
  | [] => some node
  | s :: rest =>
    match deref node with
    | some (FSNode.dir entries) =>
      match lookupEntry entries s with
      | some child => resolveNode child rest
      | none => none
    | _ => none

/-- A filesystem error as Node reports it: the `code` the source branches on
and the human-readable `message` it interpolates into its own errors. -/
structure FSError where
  code : String
  message : String
deriving DecidableEq, Repr

/-- The `ENOENT` message Node produces for a failed directory listing. -/
def enoentMsg (p : String) : String :=
  "ENOENT: no such file or directory, scandir '" ++ p ++ "'"

/-- The `ENOTDIR` message Node produces when `scandir` hits a regular file. -/
def enotdirMsg (p : String) : String :=
  "ENOTDIR: not a directory, scandir '" ++ p ++ "'"

/-- Model of `fs.readdir` applied to a resolved node (links followed): a name
list for a directory, `ENOTDIR` for a file, `ENOENT` for nothing. -/
def readdirNode (n : Option FSNode) (p : String) : Except FSError (List String) :=
  match n.bind deref with
  | none => Except.error { code := "ENOENT", message := enoentMsg p }
  | some (FSNode.file _) => Except.error { code := "ENOTDIR", message := enotdirMsg p }
  | some (FSNode.dir entries) => Except.ok (entries.map Prod.fst)
  | some (FSNode.symlink _) => Except.error { code := "ENOENT", message := enoentMsg p }

/-- Model of `fs.readdirAsync (path.join base rel)` against the tree rooted at
the input path. -/
def readdirModel (root : FSNode) (base : String) (rel : List String) :
    Except FSError (List String) :=
  readdirNode (resolveNode root rel) (renderPath base rel)

/-- Text content of a resolved node.  In the source a read of a non-file
(for instance `EISDIR` on a directory named like a script) rejects and the
rejection propagates to the owning collector's non-`ENOENT` catch, aborting
that collector; this model is total and returns a junk default there instead.
The theorems below therefore never rely on the default: statements that
mention read results restrict their trees so that every read path is a
regular file, and the database skip-equivalence statements compare two runs
that perform the same reads, so they hold under either semantics. -/
def readFileNode (n : Option FSNode) : String :=
  match n.bind deref with
  | some (FSNode.file c) => c
  | _ => ""

/-- Model of `fs.readFileAsync (utf8)` for a path relative to the input root
(see `readFileNode` for the treatment of failed reads). -/
def readFileD (root : FSNode) (rel : List String) : String :=
  readFileNode (resolveNode root rel)

/-! ## Constants of the external tools package

Modelled from the spec: the `constants` table lives in
`@factorten/auth0-source-control-extension-tools`, outside this repository.
Directory names are the fixed per-type subdirectory names; the whitelists are
reconstructed from the spec's lists and the repository's tests.  No claim
depends on the exact spellings, only on the directory names being pairwise
distinct and the whitelists being fixed. -/

def RULES_DIRECTORY : String := "rules"

def PAGES_DIRECTORY : String := "pages"

def DATABASE_CONNECTIONS_DIRECTORY : String := "database-connections"

def CLIENTS_DIRECTORY : String := "clients"

def RESOURCE_SERVERS_DIRECTORY : String := "resource-servers"

def EMAIL_TEMPLATES_DIRECTORY : String := "email-templates"

def EMAIL_PROVIDERS_DIRECTORY : String := "email-providers"

/-- Modelled from the spec: the fixed whitelist of database lifecycle script
names, in its canonical order. -/
def DATABASE_SCRIPTS : List String :=
  ["login", "create", "delete", "change_email", "get_user"]

/-- Modelled from the spec: recognized page file names (full names, extensions
included, as `isPage` compares `path.basename file` against this list). -/
def PAGE_NAMES : List String :=
  ["login.html", "login.json", "guardian_multifactor.html", "guardian_multifactor.json",
   "password_reset.html", "password_reset.json", "error_page.html", "error_page.json"]

/-- Modelled from the spec: recognized email-template file names. -/
def EMAIL_TEMPLATE_FILENAMES : List String :=
  ["verify_email.html", "verify_email.json", "reset_email.html", "reset_email.json"]

/-- Modelled from the spec: the single recognized email-provider file name. -/
def EMAIL_PROVIDER_FILENAME : String := "default.json"

/-! ## Entities and per-entity file records

Each collector first groups the listed file names into a record of discovered
file paths per entity name (the mutable objects `rules`, `pages`,
`configurables`, `databases` of the source), then loads contents and assembles
the finished entities.  JavaScript objects keep insertion order, so the
records are ordered association lists and `upsert` mirrors
`o[k] = o[k] || {}` followed by a field update. -/

/-- Update the entry at `k` with `f` (starting from `d` when absent, appended
at the end, as a fresh JavaScript object key is). -/
def upsert {β : Type} (l : List (String × β)) (k : String) (f : β → β) (d : β) :
    List (String × β) :=
  match l with
  | [] => [(k, f d)]
  | (k', v) :: rest => if k' = k then (k', f v) :: rest else (k', v) :: upsert rest k f d

/-- A finished rule entry (`processRule`'s `currentRule`). -/
structure Rule where
  script : Bool
  metadata : Bool
  name : String
  scriptFile : Option String
  metadataFile : Option String
deriving DecidableEq, Repr

/-- Discovered file paths for one rule name. -/
structure RuleFiles where
  scriptFileName : Option (List String)
  metadataFileName : Option (List String)
deriving DecidableEq, Repr

/-- The empty rule record (`rules[ruleName] || {}`). -/
def emptyRuleFiles : RuleFiles := { scriptFileName := none, metadataFileName := none }

/-- A finished page or email-template entry (`processPage`'s `currentPage`). -/
structure Page where
  metadata : Bool
  name : String
  htmlFile : Option String
  metadataFile : Option String
deriving DecidableEq, Repr

/-- Discovered file paths for one page or template name. -/
structure PageFiles where
  fileName : Option (List String)
  metaFileName : Option (List String)
deriving DecidableEq, Repr

/-- The empty page record. -/
def emptyPageFiles : PageFiles := { fileName := none, metaFileName := none }

/-- A finished email-provider entry (`processEmailProvider`'s record). -/
structure EmailProvider where
  name : String
  configFile : Option String
deriving DecidableEq, Repr

/-- Discovered file path for one provider name. -/
structure ProviderFiles where
  fileName : Option (List String)
deriving DecidableEq, Repr

/-- The empty provider record. -/
def emptyProviderFiles : ProviderFiles := { fileName := none }

/-- A finished configurable (client or resource server) entry. -/
structure Configurable where
  name : String
  configFile : Option String
  metadataFile : Option String
deriving DecidableEq, Repr

/-- Discovered file paths for one configurable name. -/
structure ConfFiles where
  configFileName : Option (List String)
  metadataFileName : Option (List String)
deriving DecidableEq, Repr

/-- The empty configurable record. -/
def emptyConfFiles : ConfFiles := { configFileName := none, metadataFileName := none }

/-- A loaded database script (`readDatabaseFiles` pushes these). -/
structure DatabaseScript where
  name : String
  scriptFile : String
deriving DecidableEq, Repr

/-- A discovered database script: its whitelisted name and its path. -/
structure DbScriptRef where
  name : String
  scriptFileName : List String
deriving DecidableEq, Repr

/-- Discovered files of one database connection (`databases[name]`). -/
structure DbFiles where
  scripts : List DbScriptRef
  configurationFileName : Option (List String)
deriving DecidableEq, Repr

/-- The empty connection record (`databases[details.database] || { scripts: [] }`). -/
def emptyDbFiles : DbFiles := { scripts := [], configurationFileName := none }

/-- A finished database connection (`readDatabaseFiles`'s `database`). -/
structure Database where
  name : String
  scripts : List DatabaseScript
  configurationFile : Option String
  configurationFileName : Option String
deriving DecidableEq, Repr

/-! ## The rules collector -/

/-- One step of `getRules`'s `files.forEach`: classify a file name by its
extension and record its path under the rule name. -/
def rulesStep (rel : List String) (acc : List (String × RuleFiles)) (fileName : String) :
    List (String × RuleFiles) :=
  let nm := (splitExtName fileName).1
  let ext := (splitExtName fileName).2
  if ext ≠ ".js" ∧ ext ≠ ".json" then acc
  else if ext = ".js" then
    upsert acc nm (fun p => { p with scriptFileName := some (rel ++ [fileName]) }) emptyRuleFiles
  else
    upsert acc nm (fun p => { p with metadataFileName := some (rel ++ [fileName]) }) emptyRuleFiles

/-- `processRule`: load the discovered files of one rule (reads succeed for
just-listed files, so the flags equal presence of the paths). -/
def processRule (root : FSNode) (ruleName : String) (p : RuleFiles) : Rule :=
  { script := p.scriptFileName.isSome
    metadata := p.metadataFileName.isSome
    name := ruleName
    scriptFile := p.scriptFileName.map (readFileD root)
    metadataFile := p.metadataFileName.map (readFileD root) }

/-- `getRules`: list the directory, classify, then load.  `ENOENT` resolves to
`none` (the source's bare `Promise.resolve()`); any other listing failure is
wrapped in the rules-specific message. -/
def getRules (root : FSNode) (base : String) (rel : List String) :
    Except String (Option (List Rule)) :=
  match readdirModel root base rel with
  | Except.error e =>
    if e.code = "ENOENT" then Except.ok none
    else Except.error ("Couldn't process the rules directory because: " ++ e.message)
  | Except.ok files =>
    let rules := files.foldl (rulesStep rel) []
    Except.ok (some (rules.map (fun p => processRule root p.1 p.2)))

/-! ## The configurables collector (clients and resource servers) -/

/-- Classification step of `getConfigurableConfigs`: `.json` files only; a base
name ending in `.meta` is metadata for the name with the suffix stripped. -/
def confStep (rel : List String) (acc : List (String × ConfFiles)) (fileName : String) :
    List (String × ConfFiles) :=
  let nm := (splitExtName fileName).1
  let ext := (splitExtName fileName).2
  if ext ≠ ".json" then acc
  else if strEndsWith nm ".meta" then
    upsert acc (splitExtName nm).1
      (fun p => { p with metadataFileName := some (rel ++ [fileName]) }) emptyConfFiles
  else
    upsert acc nm (fun p => { p with configFileName := some (rel ++ [fileName]) }) emptyConfFiles

/-- `processConfigurableConfig`: load the discovered config and metadata. -/
def processConfigurableConfig (root : FSNode) (nm : String) (p : ConfFiles) : Configurable :=
  { name := nm
    configFile := p.configFileName.map (readFileD root)
    metadataFile := p.metadataFileName.map (readFileD root) }

/-- `getConfigurableConfigs`: the generic scan for clients (`ty = "client"`)
and resource servers (`ty = "resource server"`).  Its wrapped message has no
word `the` before the type label. -/
def getConfigurableConfigs (root : FSNode) (base : String) (rel : List String) (ty : String) :
    Except String (Option (List Configurable)) :=
  match readdirModel root base rel with
  | Except.error e =>
    if e.code = "ENOENT" then Except.ok none
    else Except.error ("Couldn't process " ++ ty ++ " directory because: " ++ e.message)
  | Except.ok files =>
    let configurables := files.foldl (confStep rel) []
    Except.ok (some (configurables.map (fun p => processConfigurableConfig root p.1 p.2)))

/-! ## The pages and email-templates collectors -/

/-- `isPage`: the parent directory must be the pages directory and the full
file name must be whitelisted. -/
def isPage (base : String) (rel : List String) (fileName : String) : Bool :=
  lastSeg base rel = PAGES_DIRECTORY && PAGE_NAMES.contains fileName

/-- `isEmailTemplate`: as `isPage`, against the template whitelist. -/
def isEmailTemplate (base : String) (rel : List String) (fileName : String) : Bool :=
  lastSeg base rel = EMAIL_TEMPLATES_DIRECTORY && EMAIL_TEMPLATE_FILENAMES.contains fileName

/-- `isEmailProvider`: one fixed file name inside the providers directory. -/
def isEmailProvider (base : String) (rel : List String) (fileName : String) : Bool :=
  lastSeg base rel = EMAIL_PROVIDERS_DIRECTORY && fileName = EMAIL_PROVIDER_FILENAME

/-- Classification step of `getPages` and `getEmailTemplates`: a recognized
`.json` name is metadata, any other recognized extension is the content. -/
def pagesStep (recog : String → Bool) (rel : List String)
    (acc : List (String × PageFiles)) (fileName : String) : List (String × PageFiles) :=
  if recog fileName then
    let nm := (splitExtName fileName).1
    let ext := (splitExtName fileName).2
    if ext ≠ ".json" then
      upsert acc nm (fun p => { p with fileName := some (rel ++ [fileName]) }) emptyPageFiles
    else
      upsert acc nm (fun p => { p with metaFileName := some (rel ++ [fileName]) }) emptyPageFiles
  else acc

/-- `processPage` (also used by the email-template collector). -/
def processPage (root : FSNode) (pageName : String) (p : PageFiles) : Page :=
  { metadata := p.metaFileName.isSome
    name := pageName
    htmlFile := p.fileName.map (readFileD root)
    metadataFile := p.metaFileName.map (readFileD root) }

/-- `getPages`.  Its wrapped message has no word `the` before `pages`. -/
def getPages (root : FSNode) (base : String) (rel : List String) :
    Except String (Option (List Page)) :=
  match readdirModel root base rel with
  | Except.error e =>
    if e.code = "ENOENT" then Except.ok none
    else Except.error ("Couldn't process pages directory because: " ++ e.message)
  | Except.ok files =>
    let pages := files.foldl (pagesStep (isPage base rel) rel) []
    Except.ok (some (pages.map (fun p => processPage root p.1 p.2)))

/-- `getEmailTemplates`: the pages scan against the template whitelist, with
the template-specific wrapped message (this one does say `the`). -/
def getEmailTemplates (root : FSNode) (base : String) (rel : List String) :
    Except String (Option (List Page)) :=
  match readdirModel root base rel with
  | Except.error e =>
    if e.code = "ENOENT" then Except.ok none
    else Except.error ("Couldn't process the email templates directory because: " ++ e.message)
  | Except.ok files =>
    let templates := files.foldl (pagesStep (isEmailTemplate base rel) rel) []
    Except.ok (some (templates.map (fun p => processPage root p.1 p.2)))

/-- Classification step of `getEmailProviders`. -/
def providersStep (base : String) (rel : List String)
    (acc : List (String × ProviderFiles)) (fileName : String) : List (String × ProviderFiles) :=
  if isEmailProvider base rel fileName then
    upsert acc (splitExtName fileName).1
      (fun _ => { fileName := some (rel ++ [fileName]) }) emptyProviderFiles
  else acc

/-- `processEmailProvider`. -/
def processEmailProvider (root : FSNode) (providerName : String) (p : ProviderFiles) :
    EmailProvider :=
  { name := providerName
    configFile := p.fileName.map (readFileD root) }

/-- `getEmailProviders`. -/
def getEmailProviders (root : FSNode) (base : String) (rel : List String) :
    Except String (Option (List EmailProvider)) :=
  match readdirModel root base rel with
  | Except.error e =>
    if e.code = "ENOENT" then Except.ok none
    else Except.error ("Couldn't process the email providers directory because: " ++ e.message)
  | Except.ok files =>
    let providers := files.foldl (providersStep base rel) []
    Except.ok (some (providers.map (fun p => processEmailProvider root p.1 p.2)))

/-! ## The database-connections collector

`getDatabases` lists the connections root, lists every connection
subdirectory concurrently, and each listing's continuation inserts that
connection's recognized files into the shared `databases` object as it
completes.  Insertion order therefore follows the order in which the
subdirectory listings complete, which the event loop does not fix; the model
makes that order an explicit parameter `connOrder` (indices into the root
listing, each index handled when its listing completes).  The sequential
schedule is `List.range dirs.length`.  Within one connection the file loop is
synchronous, so script order inside a connection follows the listing. -/

/-- What `getDatabaseFileDetails` derives from a file's path: which connection
it belongs to, whether it is a whitelisted script (with its script name) or
the configuration file. -/
structure DbDetail where
  database : String
  isScript : Bool
  name : String
deriving DecidableEq, Repr

/-- `getDatabaseFileDetails`: the grandparent directory must be the
connections directory; `.js`/`.json` (case-insensitively) are candidates; a
`.js` base name must be whitelisted, a `.json` one must be `configuration`. -/
def getDatabaseFileDetails (allConnectionsDir thisConnectionDir baseFileName : String) :
    Option DbDetail :=
  if allConnectionsDir = DATABASE_CONNECTIONS_DIRECTORY ∧
      (jsTest baseFileName ∨ jsonTest baseFileName) then
    let scriptName := (splitExtName baseFileName).1
    if jsTest baseFileName then
      if DATABASE_SCRIPTS.contains scriptName then
        some { database := thisConnectionDir, isScript := true,
               name := (splitExtName scriptName).1 }
      else none
    else if scriptName = "configuration" then
      some { database := thisConnectionDir, isScript := false, name := "" }
    else none
  else none

/-- One file of one connection: push a recognized script's path (appending, as
`scripts.push` does) or set the configuration path. -/
def dbFileStep (base : String) (rel : List String) (dirName : String)
    (acc : List (String × DbFiles)) (fileName : String) : List (String × DbFiles) :=
  match getDatabaseFileDetails (lastSeg base rel) dirName fileName with
  | none => acc
  | some d =>
    if d.isScript then
      upsert acc d.database
        (fun p => { p with scripts :=
          p.scripts ++ [{ name := d.name, scriptFileName := rel ++ [dirName, fileName] }] })
        emptyDbFiles
    else
      upsert acc d.database
        (fun p => { p with configurationFileName := some (rel ++ [dirName, fileName]) })
        emptyDbFiles

/-- One connection subdirectory: a listing failure only logs and skips it
(the `.catch(err => logger.warn(...))` on the inner listing); a successful
listing folds its files into the shared record. -/
def dbConnStep (root : FSNode) (base : String) (rel : List String)
    (acc : List (String × DbFiles)) (dirName : String) : List (String × DbFiles) :=
  match readdirModel root base (rel ++ [dirName]) with
  | Except.error _ => acc
  | Except.ok files => files.foldl (dbFileStep base rel dirName) acc

/-- Fold the connection subdirectories in completion order (`connOrder`
indexes into the root listing `dirs`; an out-of-range index is vacuous). -/
def connsFold (root : FSNode) (base : String) (rel : List String)
    (dirs : List String) (acc : List (String × DbFiles)) (connOrder : List Nat) :
    List (String × DbFiles) :=
  connOrder.foldl
    (fun a i =>
      match dirs[i]? with
      | some dirName => dbConnStep root base rel a dirName
      | none => a) acc

/-- Apply a completion order to a list: the elements whose indices the
schedule reaches, in schedule order.  `applyOrd (List.range l.length) l = l`
is the sequential schedule. -/
def applyOrd {α : Type} (ord : List Nat) (l : List α) : List α :=
  ord.filterMap (fun i => l[i]?)

/-- `readDatabaseFiles` with the read-completion order explicit: the source
pushes each script onto `database.scripts` inside that script's own
`readFileAsync` continuation, so the finished scripts sequence follows the
order in which the reads complete, which the event loop does not fix.
`readOrd` lists the discovered-script indices in completion order; a valid
schedule is a permutation of `List.range p.scripts.length`.  The
configuration read only sets fields, so it is order-insensitive. -/
def readDatabaseFilesOrd (root : FSNode) (base : String) (databaseName : String)
    (p : DbFiles) (readOrd : List Nat) : Database :=
  { name := databaseName
    scripts := (applyOrd readOrd p.scripts).map
      (fun s => { name := s.name, scriptFile := readFileD root s.scriptFileName })
    configurationFile := p.configurationFileName.map (readFileD root)
    configurationFileName := p.configurationFileName.map (renderPath base) }

/-- `readDatabaseFiles` at the sequential read-completion schedule (the
instance `readDatabaseFilesOrd` at `List.range p.scripts.length`, see
`readDatabaseFilesOrd_range`). -/
def readDatabaseFiles (root : FSNode) (base : String) (databaseName : String)
    (p : DbFiles) : Database :=
  { name := databaseName
    scripts := p.scripts.map (fun s => { name := s.name, scriptFile := readFileD root s.scriptFileName })
    configurationFile := p.configurationFileName.map (readFileD root)
    configurationFileName := p.configurationFileName.map (renderPath base) }

/-- `getDatabases` with both completion orders explicit: `connOrder` is the
order the per-connection listings complete, `readOrds` gives each discovered
connection the order its content reads complete.  Its wrapped message reads
`database scripts directory` with no word `the`; `ENOENT` on the root
resolves to `none`. -/
def getDatabasesSched (root : FSNode) (base : String) (rel : List String)
    (connOrder : List Nat) (readOrds : String → List Nat) :
    Except String (Option (List Database)) :=
  match readdirModel root base rel with
  | Except.error e =>
    if e.code = "ENOENT" then Except.ok none
    else Except.error ("Couldn't process database scripts directory because: " ++ e.message)
  | Except.ok dirs =>
    let databases := connsFold root base rel dirs [] connOrder
    Except.ok (some (databases.map
      (fun p => readDatabaseFilesOrd root base p.1 p.2 (readOrds p.1))))

/-- `getDatabases` at the sequential per-connection read schedule (every
connection's reads complete in discovery order); the listing completion order
`connOrder` stays explicit. -/
def getDatabases (root : FSNode) (base : String) (rel : List String)
    (connOrder : List Nat) : Except String (Option (List Database)) :=
  match readdirModel root base rel with
  | Except.error e =>
    if e.code = "ENOENT" then Except.ok none
    else Except.error ("Couldn't process database scripts directory because: " ++ e.message)
  | Except.ok dirs =>
    let databases := connsFold root base rel dirs [] connOrder
    Except.ok (some (databases.map (fun p => readDatabaseFiles root base p.1 p.2)))

/-! ## `getChanges` and the `Context` class

The external transform collaborator and `JSON.parse` are not part of the
repository; they enter as parameters so every theorem about this layer holds
for any behaviour of theirs. -/

/-- Modelled from the spec: a mapping dictionary of substitution values. -/
abbrev Mapping := List (String × String)

/-- Apply a content substitution to a rule (shape-preserving, per the spec's
transform collaborator contract). -/
def ruleSubst (σ : String → String) (r : Rule) : Rule :=
  { r with scriptFile := r.scriptFile.map σ, metadataFile := r.metadataFile.map σ }

/-- Apply a content substitution to a page or template. -/
def pageSubst (σ : String → String) (p : Page) : Page :=
  { p with htmlFile := p.htmlFile.map σ, metadataFile := p.metadataFile.map σ }

/-- Apply a content substitution to a configurable. -/
def confSubst (σ : String → String) (c : Configurable) : Configurable :=
  { c with configFile := c.configFile.map σ, metadataFile := c.metadataFile.map σ }

/-- Apply a content substitution to an email provider. -/
def providerSubst (σ : String → String) (p : EmailProvider) : EmailProvider :=
  { p with configFile := p.configFile.map σ }

/-- Apply a content substitution to a database connection's script and
configuration texts. -/
def dbSubst (σ : String → String) (d : Database) : Database :=
  { d with
    scripts := d.scripts.map (fun s => { s with scriptFile := σ s.scriptFile })
    configurationFile := d.configurationFile.map σ }

/-- Modelled from the spec: `unifyScripts`/`unifyDatabases` of the external
tools package substitute mapping values into a collection's contents,
shape-preserving, and pass an absent collection through. -/
def unifyColl {α : Type} (g : α → α) : Option (List α) → Option (List α)
  | none => none
  | some l => some (l.map g)

/-- The raw aggregate `getChanges` resolves with: the seven collections, each
absent (`undefined`) when its collector resolved empty or the parsed document
lacked the key. -/
structure Changes where
  rules : Option (List Rule)
  databases : Option (List Database)
  pages : Option (List Page)
  clients : Option (List Configurable)
  resourceServers : Option (List Configurable)
  emailTemplates : Option (List Page)
  emailProviders : Option (List EmailProvider)
deriving DecidableEq, Repr

/-- `getChanges`.  `input` is the `lstat` view of the resolved path `fullPath`
(`none`: `lstat` itself failed with `ENOENT`); a directory runs the seven
collectors against the fixed subdirectories and applies the transform with
the given mappings; a file hands its whole content to `parseDoc` (the model of
`JSON.parse`, a parameter) with no transform; anything else is rejected with
the fixed message.  `substF` is the external substitution semantics and
`connOrder` the database-scan completion order. -/
def getChanges (substF : Option Mapping → String → String) (parseDoc : String → Changes)
    (input : Option FSNode) (fullPath : String) (mappings : Option Mapping)
    (connOrder : List Nat) : Except String Changes :=
  match input with
  | none =>
    Except.error ("Can't process " ++ fullPath ++
      " because: ENOENT: no such file or directory, lstat '" ++ fullPath ++ "'")
  | some (FSNode.dir entries) => do
    let root := FSNode.dir entries
    let rules ← getRules root fullPath [RULES_DIRECTORY]
    let pages ← getPages root fullPath [PAGES_DIRECTORY]
    let databases ← getDatabases root fullPath [DATABASE_CONNECTIONS_DIRECTORY] connOrder
    let clients ← getConfigurableConfigs root fullPath [CLIENTS_DIRECTORY] "client"
    let resourceServers ←
      getConfigurableConfigs root fullPath [RESOURCE_SERVERS_DIRECTORY] "resource server"
    let emailTemplates ← getEmailTemplates root fullPath [EMAIL_TEMPLATES_DIRECTORY]
    let emailProviders ← getEmailProviders root fullPath [EMAIL_PROVIDERS_DIRECTORY]
    Except.ok
      { rules := unifyColl (ruleSubst (substF mappings)) rules
        databases := unifyColl (dbSubst (substF mappings)) databases
        pages := unifyColl (pageSubst (substF mappings)) pages
        clients := unifyColl (confSubst (substF mappings)) clients
        resourceServers := unifyColl (confSubst (substF mappings)) resourceServers
        emailTemplates := unifyColl (pageSubst (substF mappings)) emailTemplates
        emailProviders := unifyColl (providerSubst (substF mappings)) emailProviders }
  | some (FSNode.file content) => Except.ok (parseDoc content)
  | some (FSNode.symlink _) =>
    Except.error ("Not sure what to do with, " ++ fullPath ++
      ", it is not a file or directory...")

/-- The progress argument of `Context.init`; only its `mappings` field is
read (`progress && progress.mappings`). -/
structure ProgressInfo where
  mappings : Option Mapping

/-- The source's `me.mappings = me.mappings || (progress && progress.mappings)`:
constructor-supplied mappings win, the progress mappings are the fallback. -/
def effMappings (ctorMappings : Option Mapping) (progress : Option ProgressInfo) :
    Option Mapping :=
  match ctorMappings with
  | some m => some m
  | none =>
    match progress with
    | some pr => pr.mappings
    | none => none

/-- The built deployment context: `init` assigns each collection from the
`getChanges` result, defaulting an absent one (empty mapping for six of them,
empty sequence for `databases`; collections are association-style lists in
the model, so every default is the empty list). -/
structure DeployContext where
  pages : List Page
  rules : List Rule
  databases : List Database
  clients : List Configurable
  resourceServers : List Configurable
  emailTemplates : List Page
  emailProviders : List EmailProvider
deriving DecidableEq, Repr

/-- `Context.init`: choose the effective mappings, run `getChanges` on the
constructor-supplied file name, and assemble the context with per-collection
defaults. -/
def contextInit (substF : Option Mapping → String → String) (parseDoc : String → Changes)
    (ctorMappings : Option Mapping) (progress : Option ProgressInfo)
    (input : Option FSNode) (fullPath : String) (connOrder : List Nat) :
    Except String DeployContext :=
  (getChanges substF parseDoc input fullPath (effMappings ctorMappings progress)
      connOrder).map
    (fun data =>
      { pages := data.pages.getD []
        rules := data.rules.getD []
        databases := data.databases.getD []
        clients := data.clients.getD []
        resourceServers := data.resourceServers.getD []
        emailTemplates := data.emailTemplates.getD []
        emailProviders := data.emailProviders.getD [] })

/-! ## In-flight reads of one collector

Each collector processes its discovered entities with bluebird's
`Promise.map (..., { concurrency: 2 })`: at most two entity continuations run
at once, and the pool starts entities in record order, moving on as either
finishes — so any two distinct entities can be the pair in flight together.
An entity's continuation (`processRule`, `processPage`,
`processConfigurableConfig`, `processEmailProvider`, `readDatabaseFiles`)
calls `fs.readFileAsync` for every one of its files before awaiting any, so
all of an entity's reads are in flight at once.  The worst-case number of
simultaneous in-flight content reads is therefore the largest sum of two
entities' read counts (or the one entity's count when there is only one). -/

/-- Largest element of a list of counts (0 when empty). -/
def maxNat (l : List Nat) : Nat := l.foldr max 0

/-- Largest sum of the read counts of two distinct entities, one entity's
count when it is alone, 0 when there are none. -/
def maxPairSum : List Nat → Nat
  | [] => 0
  | c :: rest => max (c + maxNat rest) (maxPairSum rest)

/-- Reads issued for one rule: its script and its metadata when present. -/
def ruleReadCount (p : RuleFiles) : Nat :=
  (if p.scriptFileName.isSome then 1 else 0) + (if p.metadataFileName.isSome then 1 else 0)

/-- Reads issued for one page or template. -/
def pageReadCount (p : PageFiles) : Nat :=
  (if p.fileName.isSome then 1 else 0) + (if p.metaFileName.isSome then 1 else 0)

/-- Reads issued for one configurable. -/
def confReadCount (p : ConfFiles) : Nat :=
  (if p.configFileName.isSome then 1 else 0) + (if p.metadataFileName.isSome then 1 else 0)

/-- Reads issued for one email provider. -/
def providerReadCount (p : ProviderFiles) : Nat :=
  if p.fileName.isSome then 1 else 0

/-- Reads issued for one database connection: every script plus the optional
configuration, all pushed before the `Promise.all`. -/
def dbReadCount (p : DbFiles) : Nat :=
  p.scripts.length + (if p.configurationFileName.isSome then 1 else 0)

/-- Per-entity read counts of the rules collector on a tree. -/
def rulesReadCounts (root : FSNode) (base : String) (rel : List String) : List Nat :=
  match readdirModel root base rel with
  | Except.error _ => []
  | Except.ok files => (files.foldl (rulesStep rel) []).map (fun p => ruleReadCount p.2)

/-- Per-entity read counts of the pages collector. -/
def pagesReadCounts (root : FSNode) (base : String) (rel : List String) : List Nat :=
  match readdirModel root base rel with
  | Except.error _ => []
  | Except.ok files =>
    (files.foldl (pagesStep (isPage base rel) rel) []).map (fun p => pageReadCount p.2)

/-- Per-entity read counts of the email-templates collector. -/
def templatesReadCounts (root : FSNode) (base : String) (rel : List String) : List Nat :=
  match readdirModel root base rel with
  | Except.error _ => []
  | Except.ok files =>
    (files.foldl (pagesStep (isEmailTemplate base rel) rel) []).map (fun p => pageReadCount p.2)

/-- Per-entity read counts of a configurables collector. -/
def confReadCounts (root : FSNode) (base : String) (rel : List String) : List Nat :=
  match readdirModel root base rel with
  | Except.error _ => []
  | Except.ok files => (files.foldl (confStep rel) []).map (fun p => confReadCount p.2)

/-- Per-entity read counts of the email-providers collector. -/
def providersReadCounts (root : FSNode) (base : String) (rel : List String) : List Nat :=
  match readdirModel root base rel with
  | Except.error _ => []
  | Except.ok files =>
    (files.foldl (providersStep base rel) []).map (fun p => providerReadCount p.2)

/-- Per-connection read counts of the databases collector. -/
def dbReadCounts (root : FSNode) (base : String) (rel : List String)
    (connOrder : List Nat) : List Nat :=
  match readdirModel root base rel with
  | Except.error _ => []
  | Except.ok dirs => (connsFold root base rel dirs [] connOrder).map (fun p => dbReadCount p.2)

/-! ## Further definitions used by the claims -/

/-- Stated from the claim's words, for comparison with the collector: a
connection's script-name sequence is arranged in the whitelist's canonical
order with duplicate names overwritten exactly when it equals the whitelist
restricted to the names present. -/
def whitelistOrdered (names : List String) : Prop :=
  names = DATABASE_SCRIPTS.filter (fun s => names.contains s)

/-- A connections tree holding a single connection `c` with the given named
file contents. -/
def connTree (c : String) (files : List (String × String)) : FSNode :=
  FSNode.dir [(DATABASE_CONNECTIONS_DIRECTORY,
    FSNode.dir [(c, FSNode.dir (files.map (fun p => (p.1, FSNode.file p.2))))])]

/-- What one connection file contributes directly — its whitelisted script
name paired with the file's content — per the database classifier. -/
def dbScriptEntryFor (c : String) (p : String × String) : Option DatabaseScript :=
  match getDatabaseFileDetails DATABASE_CONNECTIONS_DIRECTORY c p.1 with
  | some d => if d.isScript then some { name := d.name, scriptFile := p.2 } else none
  | none => none

/-- The script reference one file name contributes to the discovery record. -/
def dbScriptRefFor (base : String) (rel : List String) (c f : String) :
    Option DbScriptRef :=
  match getDatabaseFileDetails (lastSeg base rel) c f with
  | some d =>
    if d.isScript then some { name := d.name, scriptFileName := rel ++ [c, f] } else none
  | none => none

/-- A connections tree holding a good connection `c₁` with the given named
file contents next to a sibling `c₂` that is a regular file (so that listing
`c₂` fails with `ENOTDIR`). -/
def twoConnTree (c₁ : String) (files : List (String × String)) (c₂ junk : String) :
    FSNode :=
  FSNode.dir [(DATABASE_CONNECTIONS_DIRECTORY,
    FSNode.dir [(c₁, FSNode.dir (files.map (fun p => (p.1, FSNode.file p.2)))),
                (c₂, FSNode.file junk)])]

deriving instance DecidableEq for Except

/-! ## Helper lemmas -/

/-- A path that resolves to nothing lists as `ENOENT`. -/
theorem readdirModel_of_not_found {root : FSNode} {rel : List String}
    (h : resolveNode root rel = none) (base : String) :
    readdirModel root base rel =
      Except.error { code := "ENOENT", message := enoentMsg (renderPath base rel) } := by
  unfold readdirModel
  rw [h]
  rfl

/-- `getRules` resolves empty on a missing directory. -/
theorem getRules_not_found {root : FSNode} {rel : List String}
    (h : resolveNode root rel = none) (base : String) :
    getRules root base rel = Except.ok none := by
  unfold getRules
  rw [readdirModel_of_not_found h]
  rfl

/-- `getPages` resolves empty on a missing directory. -/
theorem getPages_not_found {root : FSNode} {rel : List String}
    (h : resolveNode root rel = none) (base : String) :
    getPages root base rel = Except.ok none := by
  unfold getPages
  rw [readdirModel_of_not_found h]
  rfl

/-- `getEmailTemplates` resolves empty on a missing directory. -/
theorem getEmailTemplates_not_found {root : FSNode} {rel : List String}
    (h : resolveNode root rel = none) (base : String) :
    getEmailTemplates root base rel = Except.ok none := by
  unfold getEmailTemplates
  rw [readdirModel_of_not_found h]
  rfl

/-- `getEmailProviders` resolves empty on a missing directory. -/
theorem getEmailProviders_not_found {root : FSNode} {rel : List String}
    (h : resolveNode root rel = none) (base : String) :
    getEmailProviders root base rel = Except.ok none := by
  unfold getEmailProviders
  rw [readdirModel_of_not_found h]
  rfl

/-- `getConfigurableConfigs` resolves empty on a missing directory. -/
theorem getConfigurableConfigs_not_found {root : FSNode} {rel : List String}
    (h : resolveNode root rel = none) (base ty : String) :
    getConfigurableConfigs root base rel ty = Except.ok none := by
  unfold getConfigurableConfigs
  rw [readdirModel_of_not_found h]
  rfl

/-- `getDatabases` resolves empty on a missing directory, whatever the
completion order. -/
theorem getDatabases_not_found {root : FSNode} {rel : List String}
    (h : resolveNode root rel = none) (base : String) (connOrder : List Nat) :
    getDatabases root base rel connOrder = Except.ok none := by
  unfold getDatabases
  rw [readdirModel_of_not_found h]
  rfl

/-! ## Claim C1 -/

/-- C1: a missing subdirectory (its path resolves to nothing, so its listing
fails with `ENOENT`) makes each of the seven collectors resolve empty rather
than reject, and a directory input with all seven subdirectories absent builds
successfully into the context whose collections are all the empty default. -/
theorem claim1_missing_subdirectory_yields_empty_defaults :
    (∀ (root : FSNode) (base : String) (rel : List String) (connOrder : List Nat) (ty : String),
      resolveNode root rel = none →
        getRules root base rel = Except.ok none ∧
        getPages root base rel = Except.ok none ∧
        getDatabases root base rel connOrder = Except.ok none ∧
        getConfigurableConfigs root base rel ty = Except.ok none ∧
        getEmailTemplates root base rel = Except.ok none ∧
        getEmailProviders root base rel = Except.ok none) ∧
    (∀ (substF : Option Mapping → String → String) (parseDoc : String → Changes)
        (ctorMappings : Option Mapping) (progress : Option ProgressInfo)
        (base : String) (connOrder : List Nat),
      contextInit substF parseDoc ctorMappings progress (some (FSNode.dir [])) base connOrder =
        Except.ok
          { pages := [], rules := [], databases := [], clients := [],
            resourceServers := [], emailTemplates := [], emailProviders := [] }) := by
  constructor
  · intro root base rel connOrder ty h
    exact ⟨getRules_not_found h base, getPages_not_found h base,
      getDatabases_not_found h base connOrder, getConfigurableConfigs_not_found h base ty,
      getEmailTemplates_not_found h base, getEmailProviders_not_found h base⟩
  · intro substF parseDoc ctorMappings progress base connOrder
    rfl

/-- Witness for C1 at a concrete empty tree. -/
theorem claim1_missing_subdirectory_yields_empty_defaults_witness :
    getRules (FSNode.dir []) "b" ["rules"] = Except.ok none ∧
    getPages (FSNode.dir []) "b" ["rules"] = Except.ok none ∧
    getDatabases (FSNode.dir []) "b" ["rules"] [] = Except.ok none ∧
    getConfigurableConfigs (FSNode.dir []) "b" ["rules"] "client" = Except.ok none ∧
    getEmailTemplates (FSNode.dir []) "b" ["rules"] = Except.ok none ∧
    getEmailProviders (FSNode.dir []) "b" ["rules"] = Except.ok none :=
  claim1_missing_subdirectory_yields_empty_defaults.1
    (FSNode.dir []) "b" ["rules"] [] "client" rfl

/-! ## Claim C4 -/

/-- C4: a regular-file input hands its whole content to the document parser
and the parsed document becomes the context field for field, each absent
collection defaulting to its empty value; neither the substitution semantics,
the supplied mappings nor the scan order enter (no placeholder substitution,
no directory scanning). -/
theorem claim4_file_input_is_parsed_document
    (substF : Option Mapping → String → String) (parseDoc : String → Changes)
    (ctorMappings : Option Mapping) (progress : Option ProgressInfo)
    (content fullPath : String) (connOrder : List Nat) :
    contextInit substF parseDoc ctorMappings progress (some (FSNode.file content))
        fullPath connOrder =
      Except.ok
        { pages := (parseDoc content).pages.getD []
          rules := (parseDoc content).rules.getD []
          databases := (parseDoc content).databases.getD []
          clients := (parseDoc content).clients.getD []
          resourceServers := (parseDoc content).resourceServers.getD []
          emailTemplates := (parseDoc content).emailTemplates.getD []
          emailProviders := (parseDoc content).emailProviders.getD [] } := rfl

/-! ## Claim C5 -/

/-- C5: an input path whose `lstat` view is neither a regular file nor a
directory (a symbolic link, broken or not) is rejected with the fixed message
naming the resolved path, independently of everything else — no collector has
run. -/
theorem claim5_non_file_non_directory_rejected
    (substF : Option Mapping → String → String) (parseDoc : String → Changes)
    (target : Option FSNode) (fullPath : String) (mappings : Option Mapping)
    (connOrder : List Nat) :
    getChanges substF parseDoc (some (FSNode.symlink target)) fullPath mappings connOrder =
      Except.error ("Not sure what to do with, " ++ fullPath ++
        ", it is not a file or directory...") := rfl

/-! ## Claim C10 -/

/-- C10: constructor-supplied mappings win over the progress mappings — with a
non-null constructor argument the built context does not depend on the
progress argument at all and the effective mappings are the constructor's; the
progress mappings are consulted exactly when the constructor supplied none. -/
theorem claim10_constructor_mappings_take_precedence :
    (∀ (substF : Option Mapping → String → String) (parseDoc : String → Changes)
        (m : Mapping) (progress progress' : Option ProgressInfo)
        (input : Option FSNode) (fullPath : String) (connOrder : List Nat),
      contextInit substF parseDoc (some m) progress input fullPath connOrder =
        contextInit substF parseDoc (some m) progress' input fullPath connOrder) ∧
    (∀ (m : Mapping) (progress : Option ProgressInfo),
      effMappings (some m) progress = some m) ∧
    (∀ pr : ProgressInfo, effMappings none (some pr) = pr.mappings) :=
  ⟨fun _ _ _ _ _ _ _ _ => rfl, fun _ _ => rfl, fun _ => rfl⟩

/-! ## Claim C2

The per-type wrappings are fixed, but they do not share the single template
`Couldn't process the <resource> directory because: ...`: the pages, database,
client and resource-server collectors write no word `the` before the label.
The counterexample exhibits the pages rejection, which no instantiation of the
claimed template can equal because every instantiation starts with
`Couldn't process the `. -/

/-- Any instantiation of the claimed uniform template starts with the fixed
head `Couldn't process the `. -/
theorem template_head_starts (r u : String) :
    strStartsWith ("Couldn't process the " ++ (r ++ (" directory because: " ++ u)))
      "Couldn't process the " = true := by
  unfold strStartsWith
  rw [String.data_append]
  generalize ("Couldn't process the " : String).data = l
  generalize (r ++ (" directory because: " ++ u)).data = t
  induction l with
  | nil => rfl
  | cons c cs ih => simp [isPrefixChars, ih]

/-- Counterexample to C2: a pages subdirectory that is a regular file makes
the build reject with `Couldn't process pages directory because: ...`, which
does not start with `Couldn't process the ` and so matches no instantiation of
the claimed per-type template. -/
theorem claim2_counterexample :
    getPages (FSNode.dir [(PAGES_DIRECTORY, FSNode.file "junk")]) "base" [PAGES_DIRECTORY] =
      Except.error
        "Couldn't process pages directory because: ENOTDIR: not a directory, scandir 'base/pages'" ∧
    strStartsWith
      "Couldn't process pages directory because: ENOTDIR: not a directory, scandir 'base/pages'"
      "Couldn't process the " = false := by
  exact ⟨rfl, rfl⟩

/-- C2 as amended: a listing failure other than not-found rejects the
collector, and the build, with that collector's own fixed wrapping of the
underlying message — `the rules` / `pages` / `database scripts` / `client` /
`resource server` / `the email templates` / `the email providers`.  The first
part states the collector-level wrapping for an arbitrary failure; the second
part states the build-level rejection when the type's subdirectory is a
regular file (the other six absent). -/
theorem claim2_amended :
    (∀ (root : FSNode) (base : String) (rel : List String) (connOrder : List Nat) (e : FSError),
      readdirModel root base rel = Except.error e → e.code ≠ "ENOENT" →
        getRules root base rel =
          Except.error ("Couldn't process the rules directory because: " ++ e.message) ∧
        getPages root base rel =
          Except.error ("Couldn't process pages directory because: " ++ e.message) ∧
        getDatabases root base rel connOrder =
          Except.error ("Couldn't process database scripts directory because: " ++ e.message) ∧
        getConfigurableConfigs root base rel "client" =
          Except.error ("Couldn't process client directory because: " ++ e.message) ∧
        getConfigurableConfigs root base rel "resource server" =
          Except.error ("Couldn't process resource server directory because: " ++ e.message) ∧
        getEmailTemplates root base rel =
          Except.error ("Couldn't process the email templates directory because: " ++ e.message) ∧
        getEmailProviders root base rel =
          Except.error ("Couldn't process the email providers directory because: " ++ e.message)) ∧
    (∀ (substF : Option Mapping → String → String) (parseDoc : String → Changes)
        (ctorMappings : Option Mapping) (progress : Option ProgressInfo)
        (base junk : String) (connOrder : List Nat),
      contextInit substF parseDoc ctorMappings progress
          (some (FSNode.dir [(RULES_DIRECTORY, FSNode.file junk)])) base connOrder =
        Except.error ("Couldn't process the rules directory because: " ++
          enotdirMsg (renderPath base [RULES_DIRECTORY])) ∧
      contextInit substF parseDoc ctorMappings progress
          (some (FSNode.dir [(PAGES_DIRECTORY, FSNode.file junk)])) base connOrder =
        Except.error ("Couldn't process pages directory because: " ++
          enotdirMsg (renderPath base [PAGES_DIRECTORY])) ∧
      contextInit substF parseDoc ctorMappings progress
          (some (FSNode.dir [(DATABASE_CONNECTIONS_DIRECTORY, FSNode.file junk)])) base connOrder =
        Except.error ("Couldn't process database scripts directory because: " ++
          enotdirMsg (renderPath base [DATABASE_CONNECTIONS_DIRECTORY])) ∧
      contextInit substF parseDoc ctorMappings progress
          (some (FSNode.dir [(CLIENTS_DIRECTORY, FSNode.file junk)])) base connOrder =
        Except.error ("Couldn't process client directory because: " ++
          enotdirMsg (renderPath base [CLIENTS_DIRECTORY])) ∧
      contextInit substF parseDoc ctorMappings progress
          (some (FSNode.dir [(RESOURCE_SERVERS_DIRECTORY, FSNode.file junk)])) base connOrder =
        Except.error ("Couldn't process resource server directory because: " ++
          enotdirMsg (renderPath base [RESOURCE_SERVERS_DIRECTORY])) ∧
      contextInit substF parseDoc ctorMappings progress
          (some (FSNode.dir [(EMAIL_TEMPLATES_DIRECTORY, FSNode.file junk)])) base connOrder =
        Except.error ("Couldn't process the email templates directory because: " ++
          enotdirMsg (renderPath base [EMAIL_TEMPLATES_DIRECTORY])) ∧
      contextInit substF parseDoc ctorMappings progress
          (some (FSNode.dir [(EMAIL_PROVIDERS_DIRECTORY, FSNode.file junk)])) base connOrder =
        Except.error ("Couldn't process the email providers directory because: " ++
          enotdirMsg (renderPath base [EMAIL_PROVIDERS_DIRECTORY]))) := by
  constructor
  · intro root base rel connOrder e h hcode
    refine ⟨?_, ?_, ?_, ?_, ?_, ?_, ?_⟩ <;>
      simp only [getRules, getPages, getDatabases, getConfigurableConfigs,
        getEmailTemplates, getEmailProviders, h] <;>
      rw [if_neg hcode] <;> try rfl
  · intro substF parseDoc ctorMappings progress base junk connOrder
    exact ⟨rfl, rfl, rfl, rfl, rfl, rfl, rfl⟩

/-- Witness for the amended C2 at a concrete tree whose pages subdirectory is
a regular file. -/
theorem claim2_amended_witness :
    getRules (FSNode.dir [(PAGES_DIRECTORY, FSNode.file "junk")]) "base" [PAGES_DIRECTORY] =
      Except.error
        ("Couldn't process the rules directory because: " ++
          "ENOTDIR: not a directory, scandir 'base/pages'") ∧
    getPages (FSNode.dir [(PAGES_DIRECTORY, FSNode.file "junk")]) "base" [PAGES_DIRECTORY] =
      Except.error
        ("Couldn't process pages directory because: " ++
          "ENOTDIR: not a directory, scandir 'base/pages'") ∧
    getDatabases (FSNode.dir [(PAGES_DIRECTORY, FSNode.file "junk")]) "base" [PAGES_DIRECTORY] [] =
      Except.error
        ("Couldn't process database scripts directory because: " ++
          "ENOTDIR: not a directory, scandir 'base/pages'") ∧
    getConfigurableConfigs (FSNode.dir [(PAGES_DIRECTORY, FSNode.file "junk")]) "base"
        [PAGES_DIRECTORY] "client" =
      Except.error
        ("Couldn't process client directory because: " ++
          "ENOTDIR: not a directory, scandir 'base/pages'") ∧
    getConfigurableConfigs (FSNode.dir [(PAGES_DIRECTORY, FSNode.file "junk")]) "base"
        [PAGES_DIRECTORY] "resource server" =
      Except.error
        ("Couldn't process resource server directory because: " ++
          "ENOTDIR: not a directory, scandir 'base/pages'") ∧
    getEmailTemplates (FSNode.dir [(PAGES_DIRECTORY, FSNode.file "junk")]) "base"
        [PAGES_DIRECTORY] =
      Except.error
        ("Couldn't process the email templates directory because: " ++
          "ENOTDIR: not a directory, scandir 'base/pages'") ∧
    getEmailProviders (FSNode.dir [(PAGES_DIRECTORY, FSNode.file "junk")]) "base"
        [PAGES_DIRECTORY] =
      Except.error
        ("Couldn't process the email providers directory because: " ++
          "ENOTDIR: not a directory, scandir 'base/pages'") :=
  claim2_amended.1 (FSNode.dir [(PAGES_DIRECTORY, FSNode.file "junk")]) "base"
    [PAGES_DIRECTORY] []
    { code := "ENOTDIR", message := "ENOTDIR: not a directory, scandir 'base/pages'" }
    rfl (by decide)

/-! ## Claim C9 -/

/-- The largest element bound of `maxNat`. -/
theorem maxNat_le {l : List Nat} {k : Nat} (h : ∀ x ∈ l, x ≤ k) : maxNat l ≤ k := by
  induction l with
  | nil => simp [maxNat]
  | cons c rest ih =>
    have hc : c ≤ k := h c (by simp)
    have hr : maxNat rest ≤ k := ih fun x hx => h x (by simp [hx])
    simp only [maxNat, List.foldr_cons] at hr ⊢
    omega

/-- When every entity issues at most `k` reads, no two of them hold more than
`2 * k` reads together. -/
theorem maxPairSum_le {l : List Nat} {k : Nat} (h : ∀ x ∈ l, x ≤ k) :
    maxPairSum l ≤ 2 * k := by
  induction l with
  | nil => simp [maxPairSum]
  | cons c rest ih =>
    have hc : c ≤ k := h c (by simp)
    have hrest : ∀ x ∈ rest, x ≤ k := fun x hx => h x (by simp [hx])
    have hm : maxNat rest ≤ k := maxNat_le hrest
    have hi : maxPairSum rest ≤ 2 * k := ih hrest
    simp only [maxPairSum]
    omega

/-- Any one entity's read count is at most the largest. -/
theorem maxPairSum_le_two_maxNat : ∀ l : List Nat, maxPairSum l ≤ 2 * maxNat l := by
  intro l
  induction l with
  | nil => simp [maxPairSum, maxNat]
  | cons c rest ih =>
    simp only [maxPairSum, maxNat, List.foldr_cons] at ih ⊢
    omega

/-- One rule issues at most two reads. -/
theorem ruleReadCount_le (p : RuleFiles) : ruleReadCount p ≤ 2 := by
  unfold ruleReadCount
  split <;> split <;> decide

/-- One page or template issues at most two reads. -/
theorem pageReadCount_le (p : PageFiles) : pageReadCount p ≤ 2 := by
  unfold pageReadCount
  split <;> split <;> decide

/-- One configurable issues at most two reads. -/
theorem confReadCount_le (p : ConfFiles) : confReadCount p ≤ 2 := by
  unfold confReadCount
  split <;> split <;> decide

/-- One email provider issues at most one read. -/
theorem providerReadCount_le (p : ProviderFiles) : providerReadCount p ≤ 1 := by
  unfold providerReadCount
  split <;> decide

/-- Mapped counts inherit a pointwise bound. -/
theorem forall_mem_map_le {α : Type} (f : α → Nat) (k : Nat) (hf : ∀ a, f a ≤ k)
    (l : List α) : ∀ x ∈ l.map f, x ≤ k := by
  intro x hx
  rcases List.mem_map.mp hx with ⟨a, _, rfl⟩
  exact hf a

/-- Read counts mapped from records bounded by `k` per entity pair-sum to at
most `2 * k`. -/
theorem maxPairSum_counts_le {α : Type} (f : α → Nat) (k : Nat) (hf : ∀ a, f a ≤ k)
    (l : List α) : maxPairSum (l.map f) ≤ 2 * k :=
  maxPairSum_le (forall_mem_map_le f k hf l)

/-- Counterexample to C9: a rules directory with two rules of two files each
makes the rules collector hold four content reads in flight at once (two
entity tasks run under the concurrency-2 pool and each starts both of its
reads eagerly), so the in-flight reads are not capped at 2. -/
theorem claim9_counterexample :
    rulesReadCounts (FSNode.dir [(RULES_DIRECTORY, FSNode.dir
        [("a.js", FSNode.file "x"), ("a.json", FSNode.file "y"),
         ("b.js", FSNode.file "z"), ("b.json", FSNode.file "w")])])
      "base" [RULES_DIRECTORY] = [2, 2] ∧
    ¬ maxPairSum (rulesReadCounts (FSNode.dir [(RULES_DIRECTORY, FSNode.dir
        [("a.js", FSNode.file "x"), ("a.json", FSNode.file "y"),
         ("b.js", FSNode.file "z"), ("b.json", FSNode.file "w")])])
      "base" [RULES_DIRECTORY]) ≤ 2 := by
  exact ⟨rfl, by decide⟩

/-- C9 as amended: the concurrency-2 pool bounds the entity tasks, not the
reads; each flat-collector entity holds at most two files (one for an email
provider), so the six flat collectors hold at most four (providers: two)
content reads in flight, on every tree; the database collector's two
concurrent tasks each hold one whole connection's reads, so its in-flight
reads are bounded by twice the largest connection's read count — not by 2. -/
theorem claim9_amended (root : FSNode) (base : String) (rel : List String)
    (connOrder : List Nat) :
    maxPairSum (rulesReadCounts root base rel) ≤ 4 ∧
    maxPairSum (pagesReadCounts root base rel) ≤ 4 ∧
    maxPairSum (templatesReadCounts root base rel) ≤ 4 ∧
    maxPairSum (confReadCounts root base rel) ≤ 4 ∧
    maxPairSum (providersReadCounts root base rel) ≤ 2 ∧
    maxPairSum (dbReadCounts root base rel connOrder) ≤
      2 * maxNat (dbReadCounts root base rel connOrder) := by
  refine ⟨?_, ?_, ?_, ?_, ?_, maxPairSum_le_two_maxNat _⟩
  · unfold rulesReadCounts
    split
    · simp [maxPairSum]
    · exact maxPairSum_counts_le _ 2 (fun p : String × RuleFiles => ruleReadCount_le p.2) _
  · unfold pagesReadCounts
    split
    · simp [maxPairSum]
    · exact maxPairSum_counts_le _ 2 (fun p : String × PageFiles => pageReadCount_le p.2) _
  · unfold templatesReadCounts
    split
    · simp [maxPairSum]
    · exact maxPairSum_counts_le _ 2 (fun p : String × PageFiles => pageReadCount_le p.2) _
  · unfold confReadCounts
    split
    · simp [maxPairSum]
    · exact maxPairSum_counts_le _ 2 (fun p : String × ConfFiles => confReadCount_le p.2) _
  · unfold providersReadCounts
    split
    · simp [maxPairSum]
    · rename_i files heq
      have h1 := maxPairSum_counts_le _ 1
        (fun p : String × ProviderFiles => providerReadCount_le p.2)
        (List.foldl (providersStep base rel) [] files)
      omega

/-! ## Name-splitting lemmas (towards C7) -/

/-- A dot-free character list has no extension split. -/
theorem splitExtChars_of_no_dot {l : List Char} (h : ∀ c ∈ l, c ≠ '.') :
    splitExtChars l = none := by
  induction l with
  | nil => rfl
  | cons c rest ih =>
    have hc : c ≠ '.' := h c (by simp)
    simp [splitExtChars, ih fun x hx => h x (by simp [hx]), hc]

/-- Splitting at the last dot of `l ++ '.' :: t` with a dot-free tail `t`
yields `(l, '.' :: t)`. -/
theorem splitExtChars_append_dot {t : List Char} (ht : ∀ c ∈ t, c ≠ '.') :
    ∀ l : List Char, splitExtChars (l ++ '.' :: t) = some (l, '.' :: t) := by
  intro l
  induction l with
  | nil => simp [splitExtChars, splitExtChars_of_no_dot ht]
  | cons c rest ih => simp [splitExtChars, ih]

/-- A nonempty string has a nonempty character list. -/
theorem data_ne_nil {s : String} (h : s ≠ "") : s.data ≠ [] := by
  intro hd
  apply h
  cases s
  cases hd
  rfl

/-- Appending a nonempty string leaves a nonempty string. -/
theorem str_append_ne_empty (a b : String) (hb : b.data ≠ []) : a ++ b ≠ "" := by
  intro h
  have hdata : (a ++ b).data = [] := by rw [h]
  rw [String.data_append] at hdata
  exact hb (List.append_eq_nil.mp hdata).2

/-- `path.parse` of `s ++ ext` splits exactly there when `s` is nonempty and
`ext` is a dot followed by dot-free characters. -/
theorem splitExtName_append_ext (s : String) (tl : List Char) (hs : s ≠ "")
    (ht : ∀ c ∈ tl, c ≠ '.') :
    splitExtName (s ++ String.mk ('.' :: tl)) = (s, String.mk ('.' :: tl)) := by
  have hd : s.data ≠ [] := data_ne_nil hs
  obtain ⟨data⟩ := s
  unfold splitExtName
  rw [show (String.mk data ++ String.mk ('.' :: tl)).data = data ++ '.' :: tl from rfl]
  rw [splitExtChars_append_dot ht]
  cases data with
  | nil => exact absurd rfl hd
  | cons a as => rfl

/-- Split of a name with the `.json` extension appended. -/
theorem splitExtName_json (s : String) (hs : s ≠ "") :
    splitExtName (s ++ ".json") = (s, ".json") :=
  splitExtName_append_ext s ['j', 's', 'o', 'n'] hs (by decide)

/-- Split of a name with the `.meta` suffix appended. -/
theorem splitExtName_meta (s : String) (hs : s ≠ "") :
    splitExtName (s ++ ".meta") = (s, ".meta") :=
  splitExtName_append_ext s ['m', 'e', 't', 'a'] hs (by decide)

/-- A list is a Boolean prefix of itself with anything appended. -/
theorem isPrefixChars_self_append (l t : List Char) : isPrefixChars l (l ++ t) = true := by
  induction l with
  | nil => rfl
  | cons c rest ih => simp [isPrefixChars, ih]

/-- Every string Boolean-ends with an appended suffix. -/
theorem strEndsWith_append (a b : String) : strEndsWith (a ++ b) b = true := by
  unfold strEndsWith
  rw [String.data_append, List.reverse_append]
  exact isPrefixChars_self_append _ _

/-- Two distinct extensions appended to one name give distinct file names. -/
theorem append_meta_json_ne (n : String) : n ++ ".meta.json" ≠ n ++ ".json" := by
  intro h
  have := congrArg String.length h
  rw [String.length_append, String.length_append] at this
  have h10 : (".meta.json" : String).length = 10 := rfl
  have h5 : (".json" : String).length = 5 := rfl
  omega

/-- The classifier's view of a `<name>.meta.json` file name: strip `.json`,
see the `.meta` suffix, strip it too. -/
theorem splitExtName_meta_json (n : String) (_hn : n ≠ "") :
    splitExtName (n ++ ".meta.json") = (n ++ ".meta", ".json") := by
  have hassoc : n ++ ".meta.json" = (n ++ ".meta") ++ ".json" := by
    rw [String.append_assoc]
    rfl
  rw [hassoc]
  exact splitExtName_json (n ++ ".meta")
    (str_append_ne_empty n ".meta" (by decide))

/-! ## Claim C7 -/

/-- C7: in the configurables scan, a `<name>.meta.json` sidecar is attached as
the metadata of the entry named `<name>` while the plain `<name>.json` becomes
that entry's primary config: the scan of a directory holding exactly those two
files produces the single entry named `<name>` (no entry named `<name>.meta`
exists) carrying both contents, whatever the directory is called and for both
configurable types. -/
theorem claim7_meta_sidecar_attaches_to_base_entry
    (d n mc cc base ty : String) (hn : n ≠ "")
    (hmeta : strEndsWith n ".meta" = false) :
    getConfigurableConfigs
        (FSNode.dir [(d, FSNode.dir
          [(n ++ ".meta.json", FSNode.file mc), (n ++ ".json", FSNode.file cc)])])
        base [d] ty =
      Except.ok (some [{ name := n, configFile := some cc, metadataFile := some mc }]) := by
  have hsplit1 := splitExtName_meta_json n hn
  have hsplit2 := splitExtName_json n hn
  have hstrip := splitExtName_meta n hn
  have hsuffix := strEndsWith_append n ".meta"
  have hne := append_meta_json_ne n
  simp [getConfigurableConfigs, readdirModel, resolveNode, lookupEntry, readdirNode,
    deref, confStep, hsplit1, hsplit2, hstrip, hsuffix, hmeta, hne, upsert,
    processConfigurableConfig, readFileD, readFileNode]

/-- Witness for C7 at a concrete client name. -/
theorem claim7_meta_sidecar_attaches_to_base_entry_witness :
    getConfigurableConfigs
        (FSNode.dir [(CLIENTS_DIRECTORY, FSNode.dir
          [("someClient.meta.json", FSNode.file "m"), ("someClient.json", FSNode.file "c")])])
        "base" [CLIENTS_DIRECTORY] "client" =
      Except.ok (some [{ name := "someClient", configFile := some "c",
                         metadataFile := some "m" }]) := by
  have h := claim7_meta_sidecar_attaches_to_base_entry CLIENTS_DIRECTORY "someClient"
    "m" "c" "base" "client" (by decide) (by decide)
  exact h

/-! ## Association-list and database-fold lemmas (towards C3, C6 and C8) -/

/-- A recognized database file always belongs to the connection directory it
sits in. -/
theorem getDatabaseFileDetails_database {a c f : String} {dd : DbDetail}
    (h : getDatabaseFileDetails a c f = some dd) : dd.database = c := by
  unfold getDatabaseFileDetails at h
  repeat' split at h
  all_goals simp_all
  all_goals rw [← h.2]

/-- The sequential schedule reproduces the list. -/
theorem applyOrd_range {α : Type} : ∀ l : List α, applyOrd (List.range l.length) l = l := by
  intro l
  induction l with
  | nil => rfl
  | cons a t ih =>
    have he : (fun i => (a :: t)[i]?) ∘ Nat.succ = fun i => t[i]? := by
      funext i
      simp
    show applyOrd (List.range (t.length + 1)) (a :: t) = a :: t
    rw [List.range_succ_eq_map]
    show List.filterMap (fun i => (a :: t)[i]?) (0 :: (List.range t.length).map Nat.succ) =
      a :: t
    simp only [List.filterMap_cons, List.getElem?_cons_zero]
    rw [List.filterMap_map, he]
    exact congrArg (List.cons a) ih

/-- A valid schedule permutes the list. -/
theorem applyOrd_perm {α : Type} (l : List α) (ord : List Nat)
    (hro : ord.Perm (List.range l.length)) : (applyOrd ord l).Perm l := by
  have h : (applyOrd ord l).Perm (applyOrd (List.range l.length) l) :=
    hro.filterMap (fun i => l[i]?)
  rw [applyOrd_range l] at h
  exact h

/-- Scheduling commutes with a pointwise map. -/
theorem applyOrd_map {α β : Type} (g : α → β) (ord : List Nat) (l : List α) :
    applyOrd ord (l.map g) = (applyOrd ord l).map g := by
  unfold applyOrd
  rw [List.map_filterMap]
  apply List.filterMap_congr
  intro i _
  simp

/-- `readDatabaseFiles` is `readDatabaseFilesOrd` at the sequential read
schedule. -/
theorem readDatabaseFilesOrd_range (root : FSNode) (base databaseName : String)
    (p : DbFiles) :
    readDatabaseFilesOrd root base databaseName p (List.range p.scripts.length) =
      readDatabaseFiles root base databaseName p := by
  unfold readDatabaseFilesOrd readDatabaseFiles
  rw [applyOrd_range]

/-! ## Assembling one connection -/

/-- The basename of a one-segment relative path is that segment. -/
theorem lastSeg_singleton (base d : String) : lastSeg base [d] = d := rfl

/-- The fold of one connection's files over a record already holding only that
connection appends each recognized script in file order. -/
theorem foldl_dbFileStep_single (base : String) (rel : List String) (c : String) :
    ∀ (ns : List String) (p : DbFiles),
      (∀ f ∈ ns, ∀ dd : DbDetail,
        getDatabaseFileDetails (lastSeg base rel) c f = some dd → dd.isScript = true) →
      List.foldl (dbFileStep base rel c) [(c, p)] ns =
        [(c, { scripts := p.scripts ++ ns.filterMap (dbScriptRefFor base rel c)
               configurationFileName := p.configurationFileName })] := by
  intro ns
  induction ns with
  | nil => intro p _; simp
  | cons f fs ih =>
    intro p hcfg
    cases hdet : getDatabaseFileDetails (lastSeg base rel) c f with
    | none =>
      rw [List.foldl_cons]
      rw [show dbFileStep base rel c [(c, p)] f = [(c, p)] by
        unfold dbFileStep; rw [hdet]]
      rw [ih p (fun g hg => hcfg g (by simp [hg]))]
      simp [List.filterMap_cons, dbScriptRefFor, hdet]
    | some dd =>
      have hsc : dd.isScript = true := hcfg f (by simp) dd hdet
      have hdb : dd.database = c := getDatabaseFileDetails_database hdet
      rw [List.foldl_cons]
      rw [show dbFileStep base rel c [(c, p)] f =
          [(c, { scripts := p.scripts ++
                   [{ name := dd.name, scriptFileName := rel ++ [c, f] }]
                 configurationFileName := p.configurationFileName })] by
        unfold dbFileStep
        rw [hdet]
        simp [hsc, hdb, upsert]]
      rw [ih _ (fun g hg => hcfg g (by simp [hg]))]
      simp [List.filterMap_cons, dbScriptRefFor, hdet, hsc, List.append_assoc]

/-- The fold of one connection's files from the empty record: the connection
appears exactly when some file is recognized, with its scripts in file order. -/
theorem foldl_dbFileStep_nil (base : String) (rel : List String) (c : String) :
    ∀ ns : List String,
      (∀ f ∈ ns, ∀ dd : DbDetail,
        getDatabaseFileDetails (lastSeg base rel) c f = some dd → dd.isScript = true) →
      List.foldl (dbFileStep base rel c) [] ns =
        if ns.any (fun f => (getDatabaseFileDetails (lastSeg base rel) c f).isSome) then
          [(c, { scripts := ns.filterMap (dbScriptRefFor base rel c)
                 configurationFileName := none })]
        else [] := by
  intro ns
  induction ns with
  | nil => intro _; rfl
  | cons f fs ih =>
    intro hcfg
    cases hdet : getDatabaseFileDetails (lastSeg base rel) c f with
    | none =>
      rw [List.foldl_cons]
      rw [show dbFileStep base rel c [] f = [] by unfold dbFileStep; rw [hdet]]
      rw [ih (fun g hg => hcfg g (by simp [hg]))]
      simp [List.any_cons, List.filterMap_cons, dbScriptRefFor, hdet]
    | some dd =>
      have hsc : dd.isScript = true := hcfg f (by simp) dd hdet
      have hdb : dd.database = c := getDatabaseFileDetails_database hdet
      rw [List.foldl_cons]
      rw [show dbFileStep base rel c [] f =
          [(c, { scripts := [{ name := dd.name, scriptFileName := rel ++ [c, f] }]
                 configurationFileName := none })] by
        unfold dbFileStep
        rw [hdet]
        simp [hsc, hdb, upsert, emptyDbFiles]]
      rw [foldl_dbFileStep_single base rel c fs _ (fun g hg => hcfg g (by simp [hg]))]
      simp [List.any_cons, List.filterMap_cons, dbScriptRefFor, hdet, hsc]

/-- Looking a file name up among plain file entries with distinct names finds
its content. -/
theorem lookupEntry_file_map :
    ∀ (files : List (String × String)) (p : String × String), p ∈ files →
      (files.map Prod.fst).Nodup →
      lookupEntry (files.map fun q => (q.1, FSNode.file q.2)) p.1 =
        some (FSNode.file p.2) := by
  intro files
  induction files with
  | nil => intro p hp _; simp at hp
  | cons q qs ih =>
    intro p hp hnd
    rw [List.map_cons] at hnd
    obtain ⟨hqn, hqs⟩ := List.nodup_cons.mp hnd
    by_cases hq : q.1 = p.1
    · rcases List.mem_cons.mp hp with rfl | hp'
      · simp [lookupEntry]
      · exact absurd (hq ▸ List.mem_map_of_mem Prod.fst hp') hqn
    · rcases List.mem_cons.mp hp with rfl | hp'
      · exact absurd rfl hq
      · rw [List.map_cons]
        rw [show lookupEntry ((q.1, FSNode.file q.2) ::
            qs.map fun r => (r.1, FSNode.file r.2)) p.1 =
            lookupEntry (qs.map fun r => (r.1, FSNode.file r.2)) p.1 by
          simp [lookupEntry, hq]]
        exact ih p hp' hqs

/-- Reading a connection file out of `connTree` returns its content. -/
theorem readFile_connTree (c : String) (files : List (String × String))
    (p : String × String) (hp : p ∈ files) (hnd : (files.map Prod.fst).Nodup) :
    readFileD (connTree c files) [DATABASE_CONNECTIONS_DIRECTORY, c, p.1] = p.2 := by
  unfold readFileD connTree
  simp [resolveNode, deref, lookupEntry, lookupEntry_file_map files p hp hnd, readFileNode]

/-- Reading a good-connection file out of `twoConnTree` returns its content. -/
theorem readFile_twoConnTree (c₁ : String) (files : List (String × String))
    (c₂ junk : String) (p : String × String) (hp : p ∈ files)
    (hnd : (files.map Prod.fst).Nodup) :
    readFileD (twoConnTree c₁ files c₂ junk) [DATABASE_CONNECTIONS_DIRECTORY, c₁, p.1] =
      p.2 := by
  unfold readFileD twoConnTree
  simp [resolveNode, deref, lookupEntry, lookupEntry_file_map files p hp hnd, readFileNode]

/-- `connTree`'s root listing is the single connection. -/
theorem connTree_root_listing (base c : String) (files : List (String × String)) :
    readdirModel (connTree c files) base [DATABASE_CONNECTIONS_DIRECTORY] =
      Except.ok [c] := by
  simp [connTree, readdirModel, resolveNode, deref, lookupEntry, readdirNode]

/-- `connTree`'s connection listing is the file names in listing order. -/
theorem connTree_conn_listing (base c : String) (files : List (String × String)) :
    readdirModel (connTree c files) base ([DATABASE_CONNECTIONS_DIRECTORY] ++ [c]) =
      Except.ok (files.map Prod.fst) := by
  have hmapfst : (files.map fun q => (q.1, FSNode.file q.2)).map Prod.fst =
      files.map Prod.fst := by
    rw [List.map_map]
    rfl
  simp only [connTree, readdirModel, resolveNode, deref, lookupEntry, readdirNode]
  simp [hmapfst, resolveNode, deref, lookupEntry, readdirNode]

/-- `twoConnTree`'s root listing holds both connections. -/
theorem twoConnTree_root_listing (base c₁ : String) (files : List (String × String))
    (c₂ junk : String) :
    readdirModel (twoConnTree c₁ files c₂ junk) base [DATABASE_CONNECTIONS_DIRECTORY] =
      Except.ok [c₁, c₂] := by
  simp [twoConnTree, readdirModel, resolveNode, deref, lookupEntry, readdirNode]

/-- `twoConnTree`'s good-connection listing is the file names in listing
order. -/
theorem twoConnTree_conn_listing (base c₁ : String) (files : List (String × String))
    (c₂ junk : String) :
    readdirModel (twoConnTree c₁ files c₂ junk) base
        ([DATABASE_CONNECTIONS_DIRECTORY] ++ [c₁]) =
      Except.ok (files.map Prod.fst) := by
  have hmapfst : (files.map fun q => (q.1, FSNode.file q.2)).map Prod.fst =
      files.map Prod.fst := by
    rw [List.map_map]
    rfl
  simp only [twoConnTree, readdirModel, resolveNode, deref, lookupEntry, readdirNode]
  simp [hmapfst, resolveNode, deref, lookupEntry, readdirNode]

/-- Listing `twoConnTree`'s regular-file sibling fails with `ENOTDIR`. -/
theorem twoConnTree_bad_conn (base c₁ : String) (files : List (String × String))
    (c₂ junk : String) (hne : c₁ ≠ c₂) :
    readdirModel (twoConnTree c₁ files c₂ junk) base
        ([DATABASE_CONNECTIONS_DIRECTORY] ++ [c₂]) =
      Except.error { code := "ENOTDIR"
                     message := enotdirMsg (renderPath base
                       ([DATABASE_CONNECTIONS_DIRECTORY] ++ [c₂])) } := by
  simp [twoConnTree, readdirModel, resolveNode, deref, lookupEntry, readdirNode, hne]

/-- A connection whose files are scripts only (none recognized as a
configuration file, at least one recognized at all) contributes exactly its
own record, with the recognized scripts discovered in listing order. -/
theorem dbConnStep_assembles (root : FSNode) (base c : String)
    (files : List (String × String))
    (hconn : readdirModel root base ([DATABASE_CONNECTIONS_DIRECTORY] ++ [c]) =
      Except.ok (files.map Prod.fst))
    (hcfg : ∀ p ∈ files, ∀ dd : DbDetail,
      getDatabaseFileDetails DATABASE_CONNECTIONS_DIRECTORY c p.1 = some dd →
        dd.isScript = true)
    (hsome : ∃ p ∈ files,
      (getDatabaseFileDetails DATABASE_CONNECTIONS_DIRECTORY c p.1).isSome) :
    dbConnStep root base [DATABASE_CONNECTIONS_DIRECTORY] [] c =
      [(c, { scripts := (files.map Prod.fst).filterMap
               (dbScriptRefFor base [DATABASE_CONNECTIONS_DIRECTORY] c)
             configurationFileName := none })] := by
  simp only [dbConnStep, hconn]
  have hcfg' : ∀ f ∈ files.map Prod.fst, ∀ dd : DbDetail,
      getDatabaseFileDetails (lastSeg base [DATABASE_CONNECTIONS_DIRECTORY]) c f = some dd →
        dd.isScript = true := by
    intro f hf dd hdd
    rcases List.mem_map.mp hf with ⟨p, hp, rfl⟩
    rw [lastSeg_singleton] at hdd
    exact hcfg p hp dd hdd
  rw [foldl_dbFileStep_nil base [DATABASE_CONNECTIONS_DIRECTORY] c (files.map Prod.fst) hcfg']
  rw [if_pos (by
    rcases hsome with ⟨p, hp, hps⟩
    refine List.any_eq_true.mpr ⟨p.1, List.mem_map_of_mem Prod.fst hp, ?_⟩
    rw [lastSeg_singleton]
    exact hps)]

/-- Loading the discovered script references recovers each recognized file's
name and content, provided every listed file reads back its own content. -/
theorem filterMap_refs_load (root : FSNode) (base c : String)
    (files : List (String × String))
    (hread : ∀ p ∈ files,
      readFileD root [DATABASE_CONNECTIONS_DIRECTORY, c, p.1] = p.2) :
    ((files.map Prod.fst).filterMap
        (dbScriptRefFor base [DATABASE_CONNECTIONS_DIRECTORY] c)).map
      (fun s => DatabaseScript.mk s.name (readFileD root s.scriptFileName)) =
      files.filterMap (dbScriptEntryFor c) := by
  rw [List.filterMap_map, List.map_filterMap]
  apply List.filterMap_congr
  intro p hp
  show Option.map _ (dbScriptRefFor base [DATABASE_CONNECTIONS_DIRECTORY] c p.1) = _
  unfold dbScriptRefFor dbScriptEntryFor
  rw [lastSeg_singleton]
  cases hdet : getDatabaseFileDetails DATABASE_CONNECTIONS_DIRECTORY c p.1 with
  | none => rfl
  | some dd =>
    cases hsc : dd.isScript with
    | false => simp [hsc]
    | true =>
      simp only [hsc]
      simp [hread p hp]

/-- Loading one assembled connection under a read-completion schedule yields
the recognized name-content entries in that schedule's order. -/
theorem readOrdConn_assembles (root : FSNode) (base c : String) (p : DbFiles)
    (files : List (String × String)) (readOrd : List Nat)
    (hps : p.scripts = (files.map Prod.fst).filterMap
        (dbScriptRefFor base [DATABASE_CONNECTIONS_DIRECTORY] c))
    (hpc : p.configurationFileName = none)
    (hread : ∀ q ∈ files,
      readFileD root [DATABASE_CONNECTIONS_DIRECTORY, c, q.1] = q.2) :
    readDatabaseFilesOrd root base c p readOrd =
      { name := c
        scripts := applyOrd readOrd (files.filterMap (dbScriptEntryFor c))
        configurationFile := none
        configurationFileName := none } := by
  unfold readDatabaseFilesOrd
  rw [hps, hpc]
  rw [← applyOrd_map]
  rw [filterMap_refs_load root base c files hread]
  rfl

/-! ## Claim C6 -/

/-- Dropping a failing connection from the completion schedule leaves the
connection fold unchanged: the failing connection contributes nothing. -/
theorem connsFold_skip_failing (root : FSNode) (base : String) (rel : List String)
    (dirs : List String) (i : Nat) (c : String) (e : FSError)
    (hc : dirs[i]? = some c)
    (hfail : readdirModel root base (rel ++ [c]) = Except.error e) :
    ∀ (connOrder : List Nat) (acc : List (String × DbFiles)),
      connsFold root base rel dirs acc connOrder =
        connsFold root base rel dirs acc (connOrder.filter fun j => decide (j ≠ i)) := by
  intro connOrder
  induction connOrder with
  | nil => intro acc; rfl
  | cons j rest ih =>
    intro acc
    by_cases hj : j = i
    · subst hj
      have hstep : dbConnStep root base rel acc c = acc := by
        unfold dbConnStep
        rw [hfail]
      have hg : connsFold root base rel dirs acc (j :: rest) =
          connsFold root base rel dirs acc rest := by
        simp only [connsFold, List.foldl_cons, hc, hstep]
      have hfil : (j :: rest).filter (fun j' => decide (j' ≠ j)) =
          rest.filter (fun j' => decide (j' ≠ j)) := by
        simp
      rw [hg, hfil]
      exact ih acc
    · have hfil : (j :: rest).filter (fun j' => decide (j' ≠ i)) =
          j :: rest.filter (fun j' => decide (j' ≠ i)) := by
        simp [hj]
      rw [hfil]
      cases hjd : dirs[j]? with
      | none =>
        have hg₁ : connsFold root base rel dirs acc (j :: rest) =
            connsFold root base rel dirs acc rest := by
          simp only [connsFold, List.foldl_cons, hjd]
        have hg₂ : connsFold root base rel dirs acc
            (j :: rest.filter (fun j' => decide (j' ≠ i))) =
            connsFold root base rel dirs acc (rest.filter (fun j' => decide (j' ≠ i))) := by
          simp only [connsFold, List.foldl_cons, hjd]
        rw [hg₁, hg₂]
        exact ih acc
      | some c' =>
        have hg₁ : connsFold root base rel dirs acc (j :: rest) =
            connsFold root base rel dirs (dbConnStep root base rel acc c') rest := by
          simp only [connsFold, List.foldl_cons, hjd]
        have hg₂ : connsFold root base rel dirs acc
            (j :: rest.filter (fun j' => decide (j' ≠ i))) =
            connsFold root base rel dirs (dbConnStep root base rel acc c')
              (rest.filter (fun j' => decide (j' ≠ i))) := by
          simp only [connsFold, List.foldl_cons, hjd]
        rw [hg₁, hg₂]
        exact ih _

/-- C6: within the database scan, a connection subdirectory whose listing
fails is only skipped.  First, for every tree: the run equals the run whose
completion schedule never visits the failing connection, and that
connection's step leaves any record untouched.  Second, on the two-connection
trees whose second connection is a regular file (so its listing fails with
`ENOTDIR`) and whose first holds recognized script files only, the scan still
succeeds, assembling exactly the healthy sibling in full. -/
theorem claim6_failing_connection_only_skipped :
    (∀ (root : FSNode) (base : String) (rel : List String) (dirs : List String)
        (connOrder : List Nat) (readOrds : String → List Nat)
        (i : Nat) (c : String) (e : FSError),
      readdirModel root base rel = Except.ok dirs →
      dirs[i]? = some c →
      readdirModel root base (rel ++ [c]) = Except.error e →
      getDatabasesSched root base rel connOrder readOrds =
        getDatabasesSched root base rel
          (connOrder.filter fun j => decide (j ≠ i)) readOrds ∧
      ∀ acc : List (String × DbFiles), dbConnStep root base rel acc c = acc) ∧
    (∀ (base c₁ c₂ junk : String) (files : List (String × String)) (readOrd : List Nat),
      c₁ ≠ c₂ →
      (files.map Prod.fst).Nodup →
      (∀ p ∈ files, ∀ dd : DbDetail,
        getDatabaseFileDetails DATABASE_CONNECTIONS_DIRECTORY c₁ p.1 = some dd →
          dd.isScript = true) →
      (∃ p ∈ files,
        (getDatabaseFileDetails DATABASE_CONNECTIONS_DIRECTORY c₁ p.1).isSome) →
      getDatabasesSched (twoConnTree c₁ files c₂ junk) base
          [DATABASE_CONNECTIONS_DIRECTORY] [0, 1] (fun _ => readOrd) =
        Except.ok (some [{ name := c₁
                           scripts := applyOrd readOrd
                             (files.filterMap (dbScriptEntryFor c₁))
                           configurationFile := none
                           configurationFileName := none }])) := by
  constructor
  · intro root base rel dirs connOrder readOrds i c e hdirs hc hfail
    constructor
    · simp only [getDatabasesSched, hdirs]
      rw [connsFold_skip_failing root base rel dirs i c e hc hfail connOrder []]
    · intro acc
      unfold dbConnStep
      rw [hfail]
  · intro base c₁ c₂ junk files readOrd hne hnd hcfg hsome
    have hroot := twoConnTree_root_listing base c₁ files c₂ junk
    have hconn := twoConnTree_conn_listing base c₁ files c₂ junk
    have hbad := twoConnTree_bad_conn base c₁ files c₂ junk hne
    have hskip : ∀ acc : List (String × DbFiles),
        dbConnStep (twoConnTree c₁ files c₂ junk) base
          [DATABASE_CONNECTIONS_DIRECTORY] acc c₂ = acc := by
      intro acc
      unfold dbConnStep
      rw [hbad]
    simp only [getDatabasesSched, hroot]
    rw [show connsFold (twoConnTree c₁ files c₂ junk) base
        [DATABASE_CONNECTIONS_DIRECTORY] [c₁, c₂] [] [0, 1] =
        dbConnStep (twoConnTree c₁ files c₂ junk) base [DATABASE_CONNECTIONS_DIRECTORY]
          (dbConnStep (twoConnTree c₁ files c₂ junk) base
            [DATABASE_CONNECTIONS_DIRECTORY] [] c₁) c₂ by
      simp [connsFold]]
    rw [hskip]
    rw [dbConnStep_assembles (twoConnTree c₁ files c₂ junk) base c₁ files hconn hcfg hsome]
    simp only [List.map_cons, List.map_nil]
    rw [readOrdConn_assembles (twoConnTree c₁ files c₂ junk) base c₁
      { scripts := (files.map Prod.fst).filterMap
          (dbScriptRefFor base [DATABASE_CONNECTIONS_DIRECTORY] c₁)
        configurationFileName := none }
      files readOrd rfl rfl
      (fun q hq => readFile_twoConnTree c₁ files c₂ junk q hq hnd)]

/-- Witness for C6: a concrete two-connection tree whose second connection is
a regular file; the scan equals the scan that never visits it, and it
succeeds with the healthy connection assembled in full. -/
theorem claim6_failing_connection_only_skipped_witness :
    (getDatabasesSched (twoConnTree "db1" [("login.js", "l")] "db2" "junk")
        "base" [DATABASE_CONNECTIONS_DIRECTORY] [0, 1] (fun _ => [0]) =
      getDatabasesSched (twoConnTree "db1" [("login.js", "l")] "db2" "junk")
        "base" [DATABASE_CONNECTIONS_DIRECTORY]
        ([0, 1].filter fun j => decide (j ≠ 1)) (fun _ => [0])) ∧
    getDatabasesSched (twoConnTree "db1" [("login.js", "l")] "db2" "junk")
        "base" [DATABASE_CONNECTIONS_DIRECTORY] [0, 1] (fun _ => [0]) =
      Except.ok (some [{ name := "db1"
                         scripts := applyOrd [0]
                           ([("login.js", "l")].filterMap (dbScriptEntryFor "db1"))
                         configurationFile := none
                         configurationFileName := none }]) :=
  ⟨(claim6_failing_connection_only_skipped.1
      (twoConnTree "db1" [("login.js", "l")] "db2" "junk") "base"
      [DATABASE_CONNECTIONS_DIRECTORY] ["db1", "db2"] [0, 1] (fun _ => [0]) 1 "db2"
      { code := "ENOTDIR"
        message := enotdirMsg (renderPath "base"
          ([DATABASE_CONNECTIONS_DIRECTORY] ++ ["db2"])) }
      rfl rfl rfl).1,
   claim6_failing_connection_only_skipped.2 "base" "db1" "db2" "junk"
      [("login.js", "l")] [0] (by decide) (by decide) (by decide) (by decide)⟩

/-! ## Claim C8 -/

/-- Counterexample to C3: a connection directory listing `create.js`,
`login.js` and `login.JS` in that order, under the valid (here sequential)
read-completion schedule `[0, 1, 2]`, yields the script sequence
`create, login, login` — completion order with a duplicated name — while the
whitelist's canonical order with duplicates overwritten would be
`login, create`. -/
theorem claim3_counterexample :
    List.Perm [0, 1, 2] (List.range 3) ∧
    getDatabasesSched
        (connTree "db1" [("create.js", "c"), ("login.js", "l"), ("login.JS", "L")])
        "base" [DATABASE_CONNECTIONS_DIRECTORY] [0] (fun _ => [0, 1, 2]) =
      Except.ok (some [{ name := "db1"
                         scripts := [{ name := "create", scriptFile := "c" },
                                     { name := "login", scriptFile := "l" },
                                     { name := "login", scriptFile := "L" }]
                         configurationFile := none
                         configurationFileName := none }]) ∧
    ([{ name := "create", scriptFile := "c" }, { name := "login", scriptFile := "l" },
      { name := "login", scriptFile := "L" }] : List DatabaseScript).map DatabaseScript.name =
      ["create", "login", "login"] ∧
    ¬ whitelistOrdered ["create", "login", "login"] := by
  refine ⟨by decide, by decide, by decide, by unfold whitelistOrdered; decide⟩

/-- C3 as amended: for a scanned connection directory holding scripts only
(no configuration file, distinct file names, at least one recognized), the
scripts sequence lists the recognized files in the order their content reads
complete — the source pushes each entry inside its own read continuation —
which for any valid schedule is some permutation of the listing-discovery
entries, not the whitelist's canonical order; a duplicated script name (such
as `login.js` next to `login.JS`) contributes one entry per file rather than
overwriting. -/
theorem claim3_amended_scripts_follow_read_order (base c : String)
    (files : List (String × String)) (readOrd : List Nat)
    (hnd : (files.map Prod.fst).Nodup)
    (hcfg : ∀ p ∈ files, ∀ dd : DbDetail,
      getDatabaseFileDetails DATABASE_CONNECTIONS_DIRECTORY c p.1 = some dd →
        dd.isScript = true)
    (hsome : ∃ p ∈ files,
      (getDatabaseFileDetails DATABASE_CONNECTIONS_DIRECTORY c p.1).isSome)
    (hro : readOrd.Perm (List.range (files.filterMap (dbScriptEntryFor c)).length)) :
    getDatabasesSched (connTree c files) base [DATABASE_CONNECTIONS_DIRECTORY] [0]
        (fun _ => readOrd) =
      Except.ok (some [{ name := c
                         scripts := applyOrd readOrd (files.filterMap (dbScriptEntryFor c))
                         configurationFile := none
                         configurationFileName := none }]) ∧
    (applyOrd readOrd (files.filterMap (dbScriptEntryFor c))).Perm
      (files.filterMap (dbScriptEntryFor c)) := by
  constructor
  · have hroot := connTree_root_listing base c files
    have hconn := connTree_conn_listing base c files
    simp only [getDatabasesSched, hroot]
    rw [show connsFold (connTree c files) base [DATABASE_CONNECTIONS_DIRECTORY] [c] [] [0] =
        dbConnStep (connTree c files) base [DATABASE_CONNECTIONS_DIRECTORY] [] c by
      simp [connsFold]]
    rw [dbConnStep_assembles (connTree c files) base c files hconn hcfg hsome]
    simp only [List.map_cons, List.map_nil]
    rw [readOrdConn_assembles (connTree c files) base c
      { scripts := (files.map Prod.fst).filterMap
          (dbScriptRefFor base [DATABASE_CONNECTIONS_DIRECTORY] c)
        configurationFileName := none }
      files readOrd rfl rfl
      (fun q hq => readFile_connTree c files q hq hnd)]
  · exact applyOrd_perm _ readOrd hro

/-- Witness for the amended C3: two whitelisted scripts whose reads complete
in the reverse of listing order land in the sequence in that completion
order. -/
theorem claim3_amended_scripts_follow_read_order_witness :
    (getDatabasesSched (connTree "db1" [("create.js", "c"), ("login.js", "l")])
        "base" [DATABASE_CONNECTIONS_DIRECTORY] [0] (fun _ => [1, 0]) =
      Except.ok (some [{ name := "db1"
                         scripts := applyOrd [1, 0]
                           ([("create.js", "c"), ("login.js", "l")].filterMap
                             (dbScriptEntryFor "db1"))
                         configurationFile := none
                         configurationFileName := none }]) ∧
     (applyOrd [1, 0] ([("create.js", "c"), ("login.js", "l")].filterMap
         (dbScriptEntryFor "db1"))).Perm
       ([("create.js", "c"), ("login.js", "l")].filterMap (dbScriptEntryFor "db1"))) :=
  claim3_amended_scripts_follow_read_order "base" "db1"
    [("create.js", "c"), ("login.js", "l")] [1, 0] (by decide) (by decide) (by decide)
    (by decide)

end DeployCli
